import Mathlib

/-
Verification of the mitonet repository's identifier-resolution,
incremental-ingestion and network-merge core against its specification.

Shallow embedding conventions:
* SQLAlchemy rows (src/mitonet/database.py) become Lean structures; a table is
  a Lean list of rows in insertion order; SQL UPDATE on a fetched row becomes
  replacement of the rows carrying that primary key; query(...).first() becomes
  List.find? over insertion order; autoincrement keys are modelled with an
  explicit next-id counter per table.
* Python floats are modelled exactly over the rationals; SQL datetimes over Nat
  timestamps; a Python keyword-argument dict over a structure of Option fields
  where none means the argument was absent (the code skips supplied None values
  with the same effect on the paths modelled here).
* The SHA-256 digest of a file (src/mitonet/ingestion.py, calculate_file_hash)
  is modelled as the stored digest attribute of the file, since the code only
  ever compares digests for equality.
-/

namespace Mitonet

/-- Character-list prefix test. -/
def isPrefixList : List Char → List Char → Bool
  | [], _ => true
  | _ :: _, [] => false
  | a :: as, b :: bs => a = b && isPrefixList as bs

/-- Character-list substring test. -/
def strContainsL : List Char → List Char → Bool
  | [], pat => pat.isEmpty
  | s@(_ :: rest), pat => isPrefixList pat s || strContainsL rest pat

/-- Python `pat in s` substring test. -/
def strContains (s pat : String) : Bool := strContainsL s.toList pat.toList

/-- Python `str.isdigit`: nonempty and all characters are digits. -/
def pyIsDigits (s : String) : Bool := s.length > 0 && s.toList.all Char.isDigit

/-- A value stored in a JSON metadata column. -/
inductive MetaVal where
  | natV (n : Nat)
  | strV (s : String)
deriving DecidableEq

/-- database.py, class DataSource. -/
structure DataSource where
  id : Nat
  name : String
  version : String
  file_path : String
  file_size : Option Nat
  file_hash : Option String
  last_updated : Nat
  source_metadata : List (String × MetaVal)
deriving DecidableEq

/-- database.py, class Protein.  Column defaults: the boolean flags default to
false and muscle_tpm to 0.0. -/
structure Protein where
  id : Nat
  uniprot_id : String
  gene_symbol : Option String := none
  gene_description : Option String := none
  is_mitochondrial : Bool := false
  mitocarta_list : Option String := none
  mitocarta_evidence : Option String := none
  mitocarta_sub_localization : Option String := none
  mitocarta_pathways : Option String := none
  is_muscle_expressed : Bool := false
  muscle_tpm : ℚ := 0
  protein_evidence_level : Option String := none
  main_localization : Option String := none
  priority_score : Option ℚ := none
  created_at : Nat := 0
  updated_at : Nat := 0
deriving DecidableEq

/-- database.py, class ProteinAlias. -/
structure ProteinAlias where
  id : Nat
  protein_id : Nat
  alias_type : String
  alias_value : String
  source_id : Option Nat
deriving DecidableEq

/-- database.py, class Interaction. -/
structure Interaction where
  id : Nat
  protein1_id : Nat
  protein2_id : Nat
  confidence_score : Option ℚ := none
  evidence_type : Option String := none
  interaction_type : Option String := none
  source_id : Nat
  source_specific_id : Option String := none
  source_scores : Option (List (String × ℚ)) := none
  created_at : Nat := 0
deriving DecidableEq

/-- database.py, class ProcessingCheckpoint.  The JSON payloads written by the
ingestion loops are counter dictionaries, modelled as String-to-Nat lists. -/
structure ProcessingCheckpoint where
  id : Nat
  checkpoint_name : String
  phase : String
  status : String
  data : List (String × Nat)
  created_at : Nat
  completed_at : Option Nat
deriving DecidableEq

/-- The persistent store of MitoNetDatabase: one list per table, in insertion
order, plus the autoincrement counters. -/
structure DB where
  sources : List DataSource := []
  proteins : List Protein := []
  aliases : List ProteinAlias := []
  interactions : List Interaction := []
  checkpoints : List ProcessingCheckpoint := []
  next_source_id : Nat := 1
  next_protein_id : Nat := 1
  next_alias_id : Nat := 1
  next_interaction_id : Nat := 1
  next_checkpoint_id : Nat := 1
deriving DecidableEq

/-- A freshly initialized database (initialize_db creates empty tables). -/
def emptyDB : DB := {}

/-- database.py, MitoNetDatabase.get_or_create_data_source.  The Python
signature is (name, version, file_path, **metadata): every other keyword
argument, including the file_size and file_hash the ingestion code passes, is
captured by **metadata and stored in the source_metadata JSON column; the
file_size and file_hash columns of a newly created row are left at NULL. -/
def get_or_create_data_source (db : DB) (name version file_path : String)
    (metadata : List (String × MetaVal)) (now : Nat) : DataSource × DB :=
  match db.sources.find? (fun s => s.name == name && s.version == version) with
  | some s => (s, db)
  | none =>
    let s : DataSource :=
      { id := db.next_source_id, name := name, version := version,
        file_path := file_path, file_size := none, file_hash := none,
        last_updated := now, source_metadata := metadata }
    (s, { db with sources := db.sources ++ [s],
                  next_source_id := db.next_source_id + 1 })

/-- The keyword arguments accepted by get_or_create_protein; none means the
keyword was absent (or supplied as None, which the update loop skips). -/
structure ProteinAttrs where
  gene_symbol : Option String := none
  gene_description : Option String := none
  is_mitochondrial : Option Bool := none
  mitocarta_list : Option String := none
  mitocarta_evidence : Option String := none
  mitocarta_sub_localization : Option String := none
  mitocarta_pathways : Option String := none
  is_muscle_expressed : Option Bool := none
  muscle_tpm : Option ℚ := none
  protein_evidence_level : Option String := none
  main_localization : Option String := none
  priority_score : Option ℚ := none
deriving DecidableEq

/-- setattr of a supplied value over a nullable column. -/
def updOpt (new old : Option α) : Option α :=
  match new with
  | some v => some v
  | none => old

/-- The update loop of get_or_create_protein: for each supplied non-None
keyword, set the column (last-writer-wins, booleans included). -/
def applyProteinAttrs (p : Protein) (a : ProteinAttrs) : Protein :=
  { p with
    gene_symbol := updOpt a.gene_symbol p.gene_symbol,
    gene_description := updOpt a.gene_description p.gene_description,
    is_mitochondrial := a.is_mitochondrial.getD p.is_mitochondrial,
    mitocarta_list := updOpt a.mitocarta_list p.mitocarta_list,
    mitocarta_evidence := updOpt a.mitocarta_evidence p.mitocarta_evidence,
    mitocarta_sub_localization :=
      updOpt a.mitocarta_sub_localization p.mitocarta_sub_localization,
    mitocarta_pathways := updOpt a.mitocarta_pathways p.mitocarta_pathways,
    is_muscle_expressed := a.is_muscle_expressed.getD p.is_muscle_expressed,
    muscle_tpm := a.muscle_tpm.getD p.muscle_tpm,
    protein_evidence_level :=
      updOpt a.protein_evidence_level p.protein_evidence_level,
    main_localization := updOpt a.main_localization p.main_localization,
    priority_score := updOpt a.priority_score p.priority_score }

/-- Protein(uniprot_id=..., **attributes): supplied attributes over the
column defaults, both timestamps set at insert. -/
def newProtein (id : Nat) (uniprot_id : String) (a : ProteinAttrs)
    (now : Nat) : Protein :=
  applyProteinAttrs
    { id := id, uniprot_id := uniprot_id, created_at := now, updated_at := now }
    a

/-- SQL UPDATE of a protein row identified by its primary key. -/
def replaceProtein (l : List Protein) (p : Protein) : List Protein :=
  l.map (fun q => if q.id = p.id then p else q)

/-- database.py, MitoNetDatabase.get_or_create_protein. -/
def get_or_create_protein (db : DB) (uniprot_id : String) (a : ProteinAttrs)
    (now : Nat) : Protein × DB :=
  match db.proteins.find? (fun p => p.uniprot_id == uniprot_id) with
  | some p =>
    let p2 := { applyProteinAttrs p a with updated_at := now }
    (p2, { db with proteins := replaceProtein db.proteins p2 })
  | none =>
    let p := newProtein db.next_protein_id uniprot_id a now
    (p, { db with proteins := db.proteins ++ [p],
                  next_protein_id := db.next_protein_id + 1 })

/-- database.py, MitoNetDatabase.add_protein_alias.  The existence check
filters by (protein_id, alias_type, alias_value); if a matching row exists the
call does nothing, otherwise a new alias row is inserted.  The function is
total: no input aborts. -/
def add_protein_alias (db : DB) (protein : Protein)
    (alias_type alias_value : String) (src : Option DataSource) : DB :=
  match db.aliases.find? (fun r =>
      r.protein_id == protein.id && r.alias_type == alias_type &&
      r.alias_value == alias_value) with
  | some _ => db
  | none =>
    let r : ProteinAlias :=
      { id := db.next_alias_id, protein_id := protein.id,
        alias_type := alias_type, alias_value := alias_value,
        source_id := src.map (fun s => s.id) }
    { db with aliases := db.aliases ++ [r],
              next_alias_id := db.next_alias_id + 1 }

/-- database.py, MitoNetDatabase.find_protein_by_alias: first alias row whose
value (and kind, when given) matches, joined to its protein. -/
def find_protein_by_alias (db : DB) (alias_value : String)
    (alias_type : Option String) : Option Protein :=
  match db.aliases.find? (fun r =>
      r.alias_value == alias_value &&
      (match alias_type with
       | some t => r.alias_type == t
       | none => true)) with
  | none => none
  | some r => db.proteins.find? (fun p => p.id == r.protein_id)

/-- The keyword arguments the ingestion code passes to add_interaction. -/
structure InteractionAttrs where
  evidence_type : Option String := none
  interaction_type : Option String := none
  source_specific_id : Option String := none
  source_scores : Option (List (String × ℚ)) := none
deriving DecidableEq

/-- The attribute loop of add_interaction: setattr of each supplied keyword. -/
def applyInteractionAttrs (r : Interaction) (a : InteractionAttrs) : Interaction :=
  { r with
    evidence_type := updOpt a.evidence_type r.evidence_type,
    interaction_type := updOpt a.interaction_type r.interaction_type,
    source_specific_id := updOpt a.source_specific_id r.source_specific_id,
    source_scores := updOpt a.source_scores r.source_scores }

/-- SQL UPDATE of an interaction row identified by its primary key. -/
def replaceInteraction (l : List Interaction) (r : Interaction) : List Interaction :=
  l.map (fun q => if q.id = r.id then r else q)

/-- The filter_by clause of add_interaction: same ordered pair, same source. -/
def interactionKeyMatch (q1 q2 : Protein) (src : DataSource)
    (r : Interaction) : Bool :=
  r.protein1_id == q1.id && r.protein2_id == q2.id && r.source_id == src.id

/-- The Interaction(...) constructor call of add_interaction. -/
def newInteraction (id : Nat) (q1 q2 : Protein) (src : DataSource)
    (confidence_score : ℚ) (a : InteractionAttrs) (now : Nat) : Interaction :=
  { id := id, protein1_id := q1.id, protein2_id := q2.id,
    source_id := src.id, confidence_score := some confidence_score,
    evidence_type := a.evidence_type, interaction_type := a.interaction_type,
    source_specific_id := a.source_specific_id,
    source_scores := a.source_scores, created_at := now }

/-- The update branch of add_interaction: raise the stored confidence to
`max(existing.confidence_score or 0, confidence)` and re-apply the supplied
attributes. -/
def updatedInteraction (r : Interaction) (confidence_score : ℚ)
    (a : InteractionAttrs) : Interaction :=
  let conf := some (max (r.confidence_score.getD 0) confidence_score)
  applyInteractionAttrs { r with confidence_score := conf } a

/-- database.py, MitoNetDatabase.add_interaction.  The pair is canonicalized
by swapping when protein1.id > protein2.id; an existing (protein1, protein2,
source) row is updated via updatedInteraction, otherwise a new row is
inserted. -/
def add_interaction (db : DB) (protein1 protein2 : Protein) (src : DataSource)
    (confidence_score : ℚ) (a : InteractionAttrs)
    (now : Nat) : Interaction × DB :=
  let pq := if protein1.id > protein2.id then (protein2, protein1)
            else (protein1, protein2)
  match db.interactions.find? (interactionKeyMatch pq.1 pq.2 src) with
  | some r =>
    let r2 := updatedInteraction r confidence_score a
    (r2, { db with interactions := replaceInteraction db.interactions r2 })
  | none =>
    let r := newInteraction db.next_interaction_id pq.1 pq.2 src
      confidence_score a now
    (r, { db with interactions := db.interactions ++ [r],
                  next_interaction_id := db.next_interaction_id + 1 })

/-- database.py, MitoNetDatabase.save_checkpoint. -/
def save_checkpoint (db : DB) (name phase : String) (data : List (String × Nat))
    (status : String) (now : Nat) : DB :=
  let c : ProcessingCheckpoint :=
    { id := db.next_checkpoint_id, checkpoint_name := name, phase := phase,
      status := status, data := data, created_at := now,
      completed_at := if status = ("completed") then some now else none }
  { db with checkpoints := db.checkpoints ++ [c],
            next_checkpoint_id := db.next_checkpoint_id + 1 }

/-- What needs_update reads from a file on disk: its SHA-256 digest, its byte
size, and its modification time already formatted as the fallback version
string of _extract_version_from_filename. -/
structure FileInfo where
  hash : String
  size : Nat
  mtime_version : String
deriving DecidableEq

/-- The file system visible to the ingestion manager. -/
structure FS where
  files : List (String × FileInfo)
deriving DecidableEq

/-- Path lookup; none models Path.exists() returning False. -/
def FS.lookup (fs : FS) (path : String) : Option FileInfo :=
  (fs.files.find? (fun e => e.1 == path)).map (fun e => e.2)

/-- pathlib Path.name: the final path component. -/
def pathName (p : String) : String := ((p.splitOn ("/")).getLast?).getD p

/-- ingestion.py, DataIngestionManager._extract_version_from_filename. -/
def extract_version_from_filename (file_path : String)
    (mtime_version : String) : String :=
  let name := pathName file_path
  if strContains name ("v12.0") then ("v12.0")
  else if strContains name ("v11.5") then ("v11.5")
  else if strContains name ("4.4.246") then ("4.4.246")
  else
    match (if strContains name ("BIOGRID-ALL-") then
             (name.splitOn ("-")).find?
               (fun part => pyIsDigits (part.replace (".") ("")))
           else none) with
    | some part => part
    | none =>
      if strContains name ("MitoCarta3.0") then ("3.0")
      else if strContains name ("MitoCarta2.0") then ("2.0")
      else mtime_version

/-- Python `if not version:` — the filename heuristic also runs when the
supplied version is the empty string. -/
def resolveVersion (version? : Option String)
    (file_path mtime_version : String) : String :=
  match version? with
  | none => extract_version_from_filename file_path mtime_version
  | some v =>
    if v = ("") then extract_version_from_filename file_path mtime_version
    else v

/-- ingestion.py, DataIngestionManager.needs_update.  A missing file returns
False at once; otherwise a missing (name, version) DataSource row returns True,
and an existing row returns True iff its file_hash or file_size column differs
from the file's current digest or size. -/
def needs_update (db : DB) (fs : FS) (source_name file_path : String)
    (version? : Option String) : Bool :=
  match fs.lookup file_path with
  | none => false
  | some info =>
    let current_hash := info.hash
    let current_size := info.size
    let version := resolveVersion version? file_path info.mtime_version
    match db.sources.find? (fun s =>
        s.name == source_name && s.version == version) with
    | none => true
    | some existing_source =>
      existing_source.file_hash != some current_hash ||
      existing_source.file_size != some current_size

/-- One parsed row of a STRING aliases file: the columns
row['#string_protein_id'], row['alias'] and row['source']. -/
structure AliasRow where
  string_protein_id : String
  alias_col : String
  source_col : String
deriving DecidableEq

/-- Python truthiness of a nullable string: None and the empty string are
falsy. -/
def pyFalsyStr (o : Option String) : Bool :=
  match o with
  | none => true
  | some s => s = ("")

/-- The gene-symbol backfill inside ingest_string_aliases: the fetched protein
row gets gene_symbol set to the alias and updated_at refreshed. -/
def set_gene_symbol (db : DB) (pid : Nat) (sym : String) (now : Nat) : DB :=
  { db with proteins := db.proteins.map (fun q =>
      if q.id = pid then { q with gene_symbol := some sym, updated_at := now }
      else q) }

/-- The per-row body of the ingest_string_aliases loop, threading the
total_processed and aliases_added counters.  A UniProt_AC row upserts the
protein and registers its STRING id; a UniProt_GN or BLAST_UniProt_GN row looks
the protein up by STRING id and, when found, registers the symbol alias and
backfills an unset gene_symbol; any other row only counts as processed. -/
def process_alias_row (st : DB × Nat × Nat) (src : DataSource) (row : AliasRow)
    (now : Nat) : DB × Nat × Nat :=
  let db := st.1
  let total := st.2.1
  let added := st.2.2
  if row.source_col == ("UniProt_AC") then
    let pr := get_or_create_protein db row.alias_col {} now
    let db2 := add_protein_alias pr.2 pr.1 ("string") row.string_protein_id
      (some src)
    (db2, total + 1, added + 1)
  else if strContains row.source_col ("UniProt_GN") ||
          strContains row.source_col ("BLAST_UniProt_GN") then
    match find_protein_by_alias db row.string_protein_id (some ("string")) with
    | some p =>
      let db2 := add_protein_alias db p ("symbol") row.alias_col (some src)
      let db3 := if pyFalsyStr p.gene_symbol
                 then set_gene_symbol db2 p.id row.alias_col now
                 else db2
      (db3, total + 1, added + 1)
    | none => (db, total + 1, added)
  else (db, total + 1, added)

/-- ingestion.py, DataIngestionManager.ingest_string_aliases, for a file whose
rows fit one chunk: register the data source (passing file_size and file_hash
as keyword arguments), fold the row loop, and persist the chunk checkpoint
with the cumulative counters. -/
def ingest_string_aliases (db : DB) (file_path : String) (info : FileInfo)
    (version? : Option String) (rows : List AliasRow)
    (now : Nat) : DataSource × DB :=
  let version := resolveVersion version? file_path info.mtime_version
  let sd := get_or_create_data_source db ("STRING_aliases") version file_path
    [(("file_size"), MetaVal.natV info.size),
     (("file_hash"), MetaVal.strV info.hash)] now
  let st := rows.foldl (fun st row => process_alias_row st sd.1 row now)
    (sd.2, 0, 0)
  let db2 := save_checkpoint st.1
    (("string_aliases_v") ++ version ++ ("_chunk_1")) ("alias_ingestion")
    [(("total_processed"), st.2.1), (("aliases_added"), st.2.2)]
    ("completed") now
  (sd.1, db2)

/-- One parsed row of the MitoCarta sheet; none models a missing column, for
which row.get supplies the default. -/
structure MitoRow where
  symbol : String
  mitocarta_list : Option String := none
  mitocarta_evidence : Option String := none
  mitocarta_sub_localization : Option String := none
  mitocarta_pathways : Option String := none
  description : Option String := none
deriving DecidableEq

/-- The per-row protein update of ingest_mitocarta: find the protein by gene
symbol and, when found, set is_mitochondrial True and copy the MitoCarta
columns (row.get defaults to the empty string, and for Description to the
protein's current description). -/
def apply_mitocarta_row (db : DB) (row : MitoRow) (now : Nat) : DB :=
  match find_protein_by_alias db row.symbol (some ("symbol")) with
  | none => db
  | some p =>
    { db with proteins := db.proteins.map (fun q =>
        if q.id = p.id then
          { q with is_mitochondrial := true,
                   mitocarta_list := some (row.mitocarta_list.getD ("")),
                   mitocarta_evidence := some (row.mitocarta_evidence.getD ("")),
                   mitocarta_sub_localization :=
                     some (row.mitocarta_sub_localization.getD ("")),
                   mitocarta_pathways := some (row.mitocarta_pathways.getD ("")),
                   gene_description := updOpt row.description q.gene_description,
                   updated_at := now }
        else q) }

/-- One parsed row of the HPA skeletal-muscle table. -/
structure HpaRow where
  gene : String
  muscle_tpm : ℚ := 0
  evidence : Option String := none
  main_location : Option String := none
  description : Option String := none
deriving DecidableEq

/-- The per-row protein update of ingest_hpa_muscle: rows with positive muscle
TPM find the protein by gene symbol and set is_muscle_expressed True together
with the HPA columns. -/
def apply_hpa_row (db : DB) (row : HpaRow) (now : Nat) : DB :=
  if row.muscle_tpm > 0 then
    match find_protein_by_alias db row.gene (some ("symbol")) with
    | none => db
    | some p =>
      { db with proteins := db.proteins.map (fun q =>
          if q.id = p.id then
            { q with is_muscle_expressed := true,
                     muscle_tpm := row.muscle_tpm,
                     protein_evidence_level := some (row.evidence.getD ("")),
                     main_localization := some (row.main_location.getD ("")),
                     gene_description := updOpt row.description q.gene_description,
                     updated_at := now }
          else q) }
  else db

/-- The three STRING sub-score columns read by _classify_string_evidence;
none models a missing column, for which row.get supplies 0. -/
structure StringScores where
  experimental : Option ℚ := none
  database : Option ℚ := none
  textmining : Option ℚ := none
deriving DecidableEq

/-- ingestion.py, DataIngestionManager._classify_string_evidence. -/
def classify_string_evidence (row : StringScores) : String :=
  let experimental := row.experimental.getD 0
  let database := row.database.getD 0
  let textmining := row.textmining.getD 0
  if experimental > max database textmining then ("experimental")
  else if database > textmining then ("database")
  else ("text_mining")

/-- One edge observation appended to self.edge_sources in main.py: the fields
of the edge_data dictionaries read by the merge step. -/
structure EdgeData where
  source : String
  confidence_score : ℚ
  evidence_type : String
  interaction_type : String
deriving DecidableEq

/-- The source_weights dictionary lookup of _calculate_composite_confidence,
with the documented 0.5 default for absent sources. -/
def source_weights_get (source : String) : ℚ :=
  if source = ("STRING_physical") then 9/10
  else if source = ("STRING_full") then 7/10
  else if source = ("BioGRID") then 1
  else if source = ("Reactome") then 4/5
  else if source = ("CORUM") then 9/10
  else 1/2

/-- main.py, MitoNetIntegrator._calculate_composite_confidence: accumulate
confidence times weight and total weight over every entry of source_list, and
divide (0.5 when the total weight is not positive). -/
def calculate_composite_confidence (source_list : List EdgeData) : ℚ :=
  let weighted_sum := source_list.foldl
    (fun acc s => acc + s.confidence_score * source_weights_get s.source) 0
  let total_weight := source_list.foldl
    (fun acc s => acc + source_weights_get s.source) 0
  if 0 < total_weight then weighted_sum / total_weight else 1/2

/-- The merged attribute dictionary built per edge key by
_merge_network_sources (the statically keyed entries; the per-source prefixed
copies of each observation's raw attributes are provenance data not read by
any claim).  list(set(...)) is modelled as order-preserving deduplication. -/
structure MergedEdge where
  sources : List String
  num_sources : Nat
  max_confidence : ℚ
  mean_confidence : ℚ
  evidence_types : List String
  interaction_types : List String
  composite_confidence : ℚ
deriving DecidableEq

/-- main.py, MitoNetIntegrator._merge_network_sources, for one edge key: the
merged attributes computed from the observation list (none for the empty list,
which the edge_sources map never contains). -/
def merge_edge : List EdgeData → Option MergedEdge
  | [] => none
  | h :: t =>
    let source_list := h :: t
    some
      { sources := source_list.map (fun s => s.source),
        num_sources := source_list.length,
        max_confidence :=
          (t.map (fun s => s.confidence_score)).foldl max h.confidence_score,
        mean_confidence :=
          (source_list.map (fun s => s.confidence_score)).sum /
            (source_list.length : ℚ),
        evidence_types :=
          (source_list.map (fun s => s.evidence_type)).eraseDups,
        interaction_types :=
          (source_list.map (fun s => s.interaction_type)).eraseDups,
        composite_confidence := calculate_composite_confidence source_list }

/-- The store states reachable from a freshly initialized database through the
write operations of the ingestion layer. -/
inductive Reach : DB → Prop where
  | empty : Reach emptyDB
  | data_source (db : DB) (name version file_path : String)
      (metadata : List (String × MetaVal)) (now : Nat) :
      Reach db →
      Reach (get_or_create_data_source db name version file_path metadata now).2
  | protein (db : DB) (u : String) (a : ProteinAttrs) (now : Nat) :
      Reach db → Reach (get_or_create_protein db u a now).2
  | alias_step (db : DB) (p : Protein) (ty v : String)
      (src : Option DataSource) :
      Reach db → Reach (add_protein_alias db p ty v src)
  | interaction (db : DB) (p1 p2 : Protein) (src : DataSource) (c : ℚ)
      (a : InteractionAttrs) (now : Nat) :
      Reach db → Reach (add_interaction db p1 p2 src c a now).2
  | checkpoint (db : DB) (n ph : String) (d : List (String × Nat))
      (st : String) (now : Nat) :
      Reach db → Reach (save_checkpoint db n ph d st now)
  | mito (db : DB) (row : MitoRow) (now : Nat) :
      Reach db → Reach (apply_mitocarta_row db row now)
  | hpa (db : DB) (row : HpaRow) (now : Nat) :
      Reach db → Reach (apply_hpa_row db row now)
  | gene_symbol (db : DB) (pid : Nat) (sym : String) (now : Nat) :
      Reach db → Reach (set_gene_symbol db pid sym now)

/-- A protein row with its update timestamp masked, to compare ingestion
results up to the updated_at refresh. -/
def clearTimes (p : Protein) : Protein := { p with updated_at := 0 }

/-- Both monotone flags survive from db to db2: every protein row whose flag
is true still has a row with its id and a true flag afterwards. -/
def flagsPreserved (db db2 : DB) : Prop :=
  ∀ p ∈ db.proteins,
    (p.is_mitochondrial = true →
      ∃ p2 ∈ db2.proteins, p2.id = p.id ∧ p2.is_mitochondrial = true) ∧
    (p.is_muscle_expressed = true →
      ∃ p2 ∈ db2.proteins, p2.id = p.id ∧ p2.is_muscle_expressed = true)

/-- Concrete file system for the change-detection scenario: one file with
digest h1 and size 10. -/
def c1fs : FS :=
  { files := [(("networks/test.txt"),
               { hash := ("h1"), size := 10, mtime_version := ("20240101") })] }

/-- The FileInfo of the file in c1fs. -/
def c1info : FileInfo := { hash := ("h1"), size := 10, mtime_version := ("20240101") }

/-- Concrete STRING aliases file for the double-ingestion scenario: a gene
name row for STRING id S1 followed by the UniProt accession row that first
creates the protein. -/
def c2rows : List AliasRow :=
  [ { string_protein_id := ("S1"), alias_col := ("G1"),
      source_col := ("UniProt_GN") },
    { string_protein_id := ("S1"), alias_col := ("P1"),
      source_col := ("UniProt_AC") } ]

/-- FileInfo of the c2rows file. -/
def c2info : FileInfo := { hash := ("h"), size := 3, mtime_version := ("20240101") }

/-- Store after the first ingestion run of c2rows, at time 1. -/
def c2run1 : DB :=
  (ingest_string_aliases emptyDB ("f") c2info (some ("test")) c2rows 1).2

/-- Store after re-ingesting the identical c2rows file, at time 2. -/
def c2run2 : DB :=
  (ingest_string_aliases c2run1 ("f") c2info (some ("test")) c2rows 2).2

/-- First protein (id 1) of the alias-conflict scenario. -/
def c4pA : Protein × DB := get_or_create_protein emptyDB ("A") {} 0

/-- Second protein (id 2) of the alias-conflict scenario. -/
def c4pB : Protein × DB := get_or_create_protein c4pA.2 ("B") {} 0

/-- Store after registering the same (symbol, X) alias against both proteins. -/
def c4db : DB :=
  add_protein_alias
    (add_protein_alias c4pB.2 c4pA.1 ("symbol") ("X") none)
    c4pB.1 ("symbol") ("X") none

/-- Store holding one protein whose mitochondrial flag was supplied true. -/
def c5dbT : DB :=
  (get_or_create_protein emptyDB ("P") { is_mitochondrial := some true } 0).2

/-- The same store after a later call supplies is_mitochondrial false. -/
def c5dbF : DB :=
  (get_or_create_protein c5dbT ("P") { is_mitochondrial := some false } 1).2

/-- First of two observations the STRING_full source contributes for one
canonical pair (the file lists both orientations of a pair). -/
def c6e1 : EdgeData :=
  { source := ("STRING_full"), confidence_score := 6/10,
    evidence_type := ("experimental"), interaction_type := ("functional") }

/-- Second observation from the same STRING_full source for the same pair. -/
def c6e2 : EdgeData :=
  { source := ("STRING_full"), confidence_score := 8/10,
    evidence_type := ("experimental"), interaction_type := ("functional") }

/-- STRING_full observation with confidence 0.6 (table weight 0.7). -/
def c7e1 : EdgeData :=
  { source := ("STRING_full"), confidence_score := 6/10,
    evidence_type := ("experimental"), interaction_type := ("functional") }

/-- BioGRID observation with confidence 0.9 (table weight 1.0). -/
def c7e2 : EdgeData :=
  { source := ("BioGRID"), confidence_score := 9/10,
    evidence_type := ("experimental"), interaction_type := ("physical") }

/-- Data source row for the canonical-pair scenario. -/
def c9src : DataSource :=
  { id := 1, name := ("S"), version := ("1"), file_path := ("f"),
    file_size := none, file_hash := none, last_updated := 0,
    source_metadata := [] }

/-- Protein with the larger id, passed first to add_interaction. -/
def c9p1 : Protein := { id := 2, uniprot_id := ("A") }

/-- Protein with the smaller id, passed second to add_interaction. -/
def c9p2 : Protein := { id := 1, uniprot_id := ("B") }

/-- Reachable store holding one interaction inserted with the pair given in
descending-id order. -/
def c9db : DB := (add_interaction emptyDB c9p1 c9p2 c9src (1/2) {} 0).2

/-- find? skips a prefix containing no match. -/
theorem find?_append_none {α : Type} (p : α → Bool) (l1 l2 : List α)
    (h : l1.find? p = none) : (l1 ++ l2).find? p = l2.find? p := by
  induction l1 with
  | nil => rfl
  | cons a t ih =>
    rw [List.find?_cons] at h
    rw [List.cons_append, List.find?_cons]
    cases hp : p a with
    | false =>
      rw [hp] at h
      exact ih h
    | true =>
      rw [hp] at h
      exact absurd h (by simp)

/-- C10: when the given file path does not exist on disk, needs_update returns
false at once — before any version resolution or DataSource lookup — for every
store state, source name and requested version, including when no DataSource
record exists for the pair.  (The code logs a warning and raises nothing; the
Lean model is total.) -/
theorem needs_update_missing_file_false (db : DB) (fs : FS)
    (source_name file_path : String) (version? : Option String)
    (h : fs.lookup file_path = none) :
    needs_update db fs source_name file_path version? = false := by
  unfold needs_update
  rw [h]

/-- Witness: on an empty file system the check for a never-seen source returns
false even though no DataSource row exists. -/
theorem needs_update_missing_file_false_witness :
    needs_update emptyDB { files := [] } ("STRING_full")
      ("networks/string.txt") none = false :=
  needs_update_missing_file_false emptyDB { files := [] } ("STRING_full")
    ("networks/string.txt") none rfl

/-- C1 (code evidence): right after get_or_create_data_source registers a new
(name, version) source — receiving the file's size and digest as keyword
arguments, exactly as every ingestion function passes them — needs_update on
the byte-for-byte identical file still returns true.  The keyword arguments
are captured by **metadata into the source_metadata JSON column, the
file_hash and file_size columns stay NULL, and the NULL-versus-value
comparison in needs_update reports a change.  The repository's own tests
(test_needs_update_unchanged_file, test_incremental_update_detection,
test_data_source_creation) assert the opposite behaviour, so the claim
matches the intent and the code is wrong. -/
theorem needs_update_true_after_register (db : DB) (fs : FS)
    (name version file_path : String) (info : FileInfo) (now : Nat)
    (hv : ¬ version = (""))
    (hfile : fs.lookup file_path = some info)
    (hnew : db.sources.find?
      (fun s => s.name == name && s.version == version) = none) :
    needs_update
      (get_or_create_data_source db name version file_path
        [(("file_size"), MetaVal.natV info.size),
         (("file_hash"), MetaVal.strV info.hash)] now).2
      fs name file_path (some version) = true := by
  unfold get_or_create_data_source
  rw [hnew]
  unfold needs_update
  rw [hfile]
  simp only [resolveVersion]
  rw [if_neg hv]
  rw [find?_append_none _ _ _ hnew]
  simp [List.find?]

/-- Witness: registering networks/test.txt as TEST_SOURCE v1.0 with its digest
h1 and size 10, then asking needs_update for the very same file, yields
true. -/
theorem needs_update_true_after_register_witness :
    needs_update
      (get_or_create_data_source emptyDB ("TEST_SOURCE") ("1.0")
        ("networks/test.txt")
        [(("file_size"), MetaVal.natV c1info.size),
         (("file_hash"), MetaVal.strV c1info.hash)] 5).2
      c1fs ("TEST_SOURCE") ("networks/test.txt") (some ("1.0")) = true :=
  needs_update_true_after_register emptyDB c1fs ("TEST_SOURCE") ("1.0")
    ("networks/test.txt") c1info 5 (by decide) (by decide) (by decide)

/-- C3 counterexample: with the experimental and database sub-scores tied at 5
and text-mining at 0, the classification is not the claimed "experimental".
(It is "database": the code tests experimental with a strict greater-than.) -/
theorem classify_tie_not_experimental_cx :
    ¬ classify_string_evidence
        { experimental := some 5, database := some 5, textmining := some 0 }
      = ("experimental") := by
  decide

/-- C3 amended: the label is the sub-score with the strictly highest value,
but ties are broken in the opposite of the claimed order — experimental wins
only when strictly above both others, database wins when not and strictly
above text-mining, and every remaining case (including experimental tied with
database, and database tied with text-mining) yields text-derived or
database per the later label: exp=db ties go to "database" and db=tm ties go
to "text_mining". -/
theorem classify_string_evidence_tie_order (e d t : ℚ) :
    (max d t < e →
      classify_string_evidence
        { experimental := some e, database := some d, textmining := some t }
        = ("experimental")) ∧
    (e ≤ max d t → t < d →
      classify_string_evidence
        { experimental := some e, database := some d, textmining := some t }
        = ("database")) ∧
    (e ≤ max d t → d ≤ t →
      classify_string_evidence
        { experimental := some e, database := some d, textmining := some t }
        = ("text_mining")) := by
  refine ⟨fun h1 => ?_, fun h1 h2 => ?_, fun h1 h2 => ?_⟩
  · unfold classify_string_evidence
    simp only [Option.getD]
    rw [if_pos h1]
  · unfold classify_string_evidence
    simp only [Option.getD]
    rw [if_neg (not_lt.mpr h1), if_pos h2]
  · unfold classify_string_evidence
    simp only [Option.getD]
    rw [if_neg (not_lt.mpr h1), if_neg (not_lt.mpr h2)]

/-- Witness: scores (5, 5, 0) satisfy the tie hypotheses and classify as
"database". -/
theorem classify_string_evidence_tie_order_witness :
    classify_string_evidence
      { experimental := some 5, database := some 5, textmining := some 0 }
      = ("database") :=
  (classify_string_evidence_tie_order 5 5 0).2.1 (by decide) (by decide)

/-- Re-adding the identical (protein, kind, value) alias is a no-op. -/
theorem add_protein_alias_idem (db : DB) (p : Protein) (ty v : String)
    (s : Option DataSource) :
    add_protein_alias (add_protein_alias db p ty v s) p ty v s
      = add_protein_alias db p ty v s := by
  unfold add_protein_alias
  cases h : db.aliases.find? (fun r =>
      r.protein_id == p.id && r.alias_type == ty && r.alias_value == v) with
  | some r => simp [h]
  | none =>
    simp only [h]
    rw [find?_append_none _ _ _ h]
    simp [List.find?]

/-- After add_protein_alias, an alias row carrying exactly the requested
(protein id, kind, value) is present. -/
theorem add_protein_alias_mem (db : DB) (p : Protein) (ty v : String)
    (s : Option DataSource) :
    ∃ r ∈ (add_protein_alias db p ty v s).aliases,
      r.protein_id = p.id ∧ r.alias_type = ty ∧ r.alias_value = v := by
  unfold add_protein_alias
  cases h : db.aliases.find? (fun r =>
      r.protein_id == p.id && r.alias_type == ty && r.alias_value == v) with
  | some r =>
    have hr := List.find?_some h
    have hmem := List.mem_of_find?_eq_some h
    simp only [Bool.and_eq_true, beq_iff_eq] at hr
    exact ⟨r, hmem, hr.1.1, hr.1.2, hr.2⟩
  | none =>
    refine ⟨_, List.mem_append_right _ (List.mem_singleton_self _), rfl, rfl, rfl⟩

/-- add_protein_alias never removes an alias row. -/
theorem add_protein_alias_mono (db : DB) (p : Protein) (ty v : String)
    (s : Option DataSource) (r : ProteinAlias) (hr : r ∈ db.aliases) :
    r ∈ (add_protein_alias db p ty v s).aliases := by
  unfold add_protein_alias
  cases h : db.aliases.find? (fun r =>
      r.protein_id == p.id && r.alias_type == ty && r.alias_value == v) with
  | some _ => exact hr
  | none => exact List.mem_append_left _ hr

/-- C4 counterexample: registering the (symbol, X) alias against protein 1 and
then against protein 2 leaves two alias rows, one per protein — the second
call is not ignored, so the claimed at-most-one-protein resolution fails. -/
theorem alias_conflict_second_row_cx :
    c4db.aliases.map (fun r => (r.protein_id, r.alias_type, r.alias_value))
      = [(1, ("symbol"), ("X")), (2, ("symbol"), ("X"))] ∧
    ¬ c4db.aliases.length = 1 := by
  decide

/-- C4 amended: add_protein_alias deduplicates per (protein, kind, value):
re-adding the same alias for the same protein is ignored, and no call ever
aborts (the operation is total).  But the same (kind, value) registered
against a second, different protein inserts a second alias row — both rows
remain, so under a given kind an alias value can resolve to two different
proteins; no (kind, value) uniqueness or first-writer-wins policy is
enforced. -/
theorem add_protein_alias_per_protein_dedup (db : DB) (p q : Protein)
    (ty v : String) (s1 s2 : Option DataSource) (hpq : ¬ p.id = q.id) :
    (∀ (db2 : DB) (p2 : Protein) (ty2 v2 : String) (s3 : Option DataSource),
      add_protein_alias (add_protein_alias db2 p2 ty2 v2 s3) p2 ty2 v2 s3
        = add_protein_alias db2 p2 ty2 v2 s3) ∧
    (∃ r1 ∈ (add_protein_alias (add_protein_alias db p ty v s1)
              q ty v s2).aliases,
     ∃ r2 ∈ (add_protein_alias (add_protein_alias db p ty v s1)
              q ty v s2).aliases,
      r1.alias_type = ty ∧ r1.alias_value = v ∧ r1.protein_id = p.id ∧
      r2.alias_type = ty ∧ r2.alias_value = v ∧ r2.protein_id = q.id ∧
      ¬ r1.protein_id = r2.protein_id) := by
  constructor
  · exact fun db2 p2 ty2 v2 s3 => add_protein_alias_idem db2 p2 ty2 v2 s3
  · obtain ⟨r1, hr1m, hr1⟩ := add_protein_alias_mem db p ty v s1
    obtain ⟨r2, hr2m, hr2⟩ :=
      add_protein_alias_mem (add_protein_alias db p ty v s1) q ty v s2
    refine ⟨r1, add_protein_alias_mono _ _ _ _ _ _ hr1m, r2, hr2m,
      hr1.2.1, hr1.2.2, hr1.1, hr2.2.1, hr2.2.2, hr2.1, ?_⟩
    rw [hr1.1, hr2.1]
    exact hpq

/-- Witness: with the two concrete proteins of the conflict scenario, the
same-protein re-add is a no-op. -/
theorem add_protein_alias_per_protein_dedup_witness :
    add_protein_alias (add_protein_alias emptyDB c4pA.1 ("symbol") ("X") none)
      c4pA.1 ("symbol") ("X") none
      = add_protein_alias emptyDB c4pA.1 ("symbol") ("X") none :=
  (add_protein_alias_per_protein_dedup emptyDB c4pA.1 c4pB.1 ("symbol") ("X")
    none none (by decide)).1 emptyDB c4pA.1 ("symbol") ("X") none

/-- Flag preservation is trivial when the protein table is unchanged. -/
theorem flagsPreserved_of_proteins_eq (db db2 : DB)
    (h : db2.proteins = db.proteins) : flagsPreserved db db2 := by
  intro p hp
  constructor <;> intro hf
  · exact ⟨p, by rw [h]; exact hp, rfl, hf⟩
  · exact ⟨p, by rw [h]; exact hp, rfl, hf⟩

/-- Flag preservation for a pointwise table rewrite that keeps ids and never
clears a set flag. -/
theorem flagsPreserved_of_map (db db2 : DB) (f : Protein → Protein)
    (hmap : db2.proteins = db.proteins.map f)
    (hidf : ∀ p, (f p).id = p.id)
    (hm : ∀ p, p.is_mitochondrial = true → (f p).is_mitochondrial = true)
    (hs : ∀ p, p.is_muscle_expressed = true → (f p).is_muscle_expressed = true) :
    flagsPreserved db db2 := by
  intro p hp
  constructor <;> intro hf
  · exact ⟨f p, by rw [hmap]; exact List.mem_map_of_mem f hp, hidf p, hm p hf⟩
  · exact ⟨f p, by rw [hmap]; exact List.mem_map_of_mem f hp, hidf p, hs p hf⟩

/-- get_or_create_data_source never touches the protein table. -/
theorem proteins_get_or_create_data_source (db : DB)
    (name version file_path : String) (metadata : List (String × MetaVal))
    (now : Nat) :
    (get_or_create_data_source db name version file_path metadata now).2.proteins
      = db.proteins := by
  unfold get_or_create_data_source
  cases h : db.sources.find? (fun s => s.name == name && s.version == version)
    <;> simp [h]

/-- add_protein_alias never touches the protein table. -/
theorem proteins_add_protein_alias (db : DB) (p : Protein) (ty v : String)
    (s : Option DataSource) :
    (add_protein_alias db p ty v s).proteins = db.proteins := by
  unfold add_protein_alias
  cases h : db.aliases.find? (fun r =>
      r.protein_id == p.id && r.alias_type == ty && r.alias_value == v)
    <;> simp [h]

/-- add_interaction never touches the protein table. -/
theorem proteins_add_interaction (db : DB) (p1 p2 : Protein)
    (src : DataSource) (c : ℚ) (a : InteractionAttrs) (now : Nat) :
    (add_interaction db p1 p2 src c a now).2.proteins = db.proteins := by
  unfold add_interaction
  cases h : db.interactions.find? (interactionKeyMatch
      (if p1.id > p2.id then (p2, p1) else (p1, p2)).1
      (if p1.id > p2.id then (p2, p1) else (p1, p2)).2 src)
    <;> simp [h]

/-- The flags monotone-preservation core for get_or_create_protein when the
supplied attributes do not carry an explicit false flag. -/
theorem flagsPreserved_get_or_create_protein (db : DB)
    (hid : ∀ p ∈ db.proteins, ∀ q ∈ db.proteins, p.id = q.id → p = q)
    (u : String) (a : ProteinAttrs) (now : Nat)
    (hm : ¬ a.is_mitochondrial = some false)
    (hs : ¬ a.is_muscle_expressed = some false) :
    flagsPreserved db (get_or_create_protein db u a now).2 := by
  unfold get_or_create_protein
  cases h : db.proteins.find? (fun p => p.uniprot_id == u) with
  | none =>
    simp only [h]
    intro p hp
    constructor <;> intro hf
    · exact ⟨p, List.mem_append_left _ hp, rfl, hf⟩
    · exact ⟨p, List.mem_append_left _ hp, rfl, hf⟩
  | some q =>
    simp only [h]
    have hq := List.mem_of_find?_eq_some h
    intro p hp
    have hmito : p.is_mitochondrial = true →
        ∃ p2 ∈ replaceProtein db.proteins
          { applyProteinAttrs q a with updated_at := now },
          p2.id = p.id ∧ p2.is_mitochondrial = true := by
      intro hf
      by_cases hpq : p.id = q.id
      · have hpeq : p = q := hid p hp q hq hpq
        refine ⟨{ applyProteinAttrs q a with updated_at := now },
          ?_, ?_, ?_⟩
        · have := List.mem_map_of_mem
            (fun r => if r.id = q.id then
              { applyProteinAttrs q a with updated_at := now } else r) hq
          simpa [replaceProtein, applyProteinAttrs] using this
        · simp [applyProteinAttrs, hpq]
        · show a.is_mitochondrial.getD q.is_mitochondrial = true
          cases ha : a.is_mitochondrial with
          | none => rw [← hpeq]; exact hf
          | some b =>
            cases b with
            | false => exact absurd ha hm
            | true => rfl
      · refine ⟨p, ?_, rfl, hf⟩
        have := List.mem_map_of_mem
          (fun r => if r.id = q.id then
            { applyProteinAttrs q a with updated_at := now } else r) hp
        simpa [replaceProtein, applyProteinAttrs, hpq] using this
    have hmuscle : p.is_muscle_expressed = true →
        ∃ p2 ∈ replaceProtein db.proteins
          { applyProteinAttrs q a with updated_at := now },
          p2.id = p.id ∧ p2.is_muscle_expressed = true := by
      intro hf
      by_cases hpq : p.id = q.id
      · have hpeq : p = q := hid p hp q hq hpq
        refine ⟨{ applyProteinAttrs q a with updated_at := now },
          ?_, ?_, ?_⟩
        · have := List.mem_map_of_mem
            (fun r => if r.id = q.id then
              { applyProteinAttrs q a with updated_at := now } else r) hq
          simpa [replaceProtein, applyProteinAttrs] using this
        · simp [applyProteinAttrs, hpq]
        · show a.is_muscle_expressed.getD q.is_muscle_expressed = true
          cases ha : a.is_muscle_expressed with
          | none => rw [← hpeq]; exact hf
          | some b =>
            cases b with
            | false => exact absurd ha hs
            | true => rfl
      · refine ⟨p, ?_, rfl, hf⟩
        have := List.mem_map_of_mem
          (fun r => if r.id = q.id then
            { applyProteinAttrs q a with updated_at := now } else r) hp
        simpa [replaceProtein, applyProteinAttrs, hpq] using this
    exact ⟨hmito, hmuscle⟩

/-- Flag preservation for the MitoCarta per-row update (it only ever sets the
mitochondrial flag true and leaves the muscle flag alone). -/
theorem flagsPreserved_apply_mitocarta_row (db : DB) (row : MitoRow)
    (now : Nat) : flagsPreserved db (apply_mitocarta_row db row now) := by
  unfold apply_mitocarta_row
  cases h : find_protein_by_alias db row.symbol (some ("symbol")) with
  | none => exact flagsPreserved_of_proteins_eq db db rfl
  | some p0 =>
    simp only [h]
    refine flagsPreserved_of_map db _ _ rfl ?_ ?_ ?_
    · intro p
      by_cases hp : p.id = p0.id <;> simp [hp]
    · intro p hf
      by_cases hp : p.id = p0.id <;> simp [hp, hf]
    · intro p hf
      by_cases hp : p.id = p0.id <;> simp [hp, hf]

/-- Flag preservation for the HPA per-row update (it only ever sets the
muscle flag true and leaves the mitochondrial flag alone). -/
theorem flagsPreserved_apply_hpa_row (db : DB) (row : HpaRow)
    (now : Nat) : flagsPreserved db (apply_hpa_row db row now) := by
  unfold apply_hpa_row
  by_cases ht : row.muscle_tpm > 0
  · rw [if_pos ht]
    cases h : find_protein_by_alias db row.gene (some ("symbol")) with
    | none => exact flagsPreserved_of_proteins_eq db db rfl
    | some p0 =>
      simp only [h]
      refine flagsPreserved_of_map db _ _ rfl ?_ ?_ ?_
      · intro p
        by_cases hp : p.id = p0.id <;> simp [hp]
      · intro p hf
        by_cases hp : p.id = p0.id <;> simp [hp, hf]
      · intro p hf
        by_cases hp : p.id = p0.id <;> simp [hp, hf]
  · rw [if_neg ht]
    exact flagsPreserved_of_proteins_eq db db rfl

/-- Flag preservation for the gene-symbol backfill. -/
theorem flagsPreserved_set_gene_symbol (db : DB) (pid : Nat) (sym : String)
    (now : Nat) : flagsPreserved db (set_gene_symbol db pid sym now) := by
  unfold set_gene_symbol
  refine flagsPreserved_of_map db _ _ rfl ?_ ?_ ?_
  · intro p
    by_cases hp : p.id = pid <;> simp [hp]
  · intro p hf
    by_cases hp : p.id = pid <;> simp [hp, hf]
  · intro p hf
    by_cases hp : p.id = pid <;> simp [hp, hf]

/-- C5 counterexample: a protein whose mitochondrial flag was stored true is
reverted to false by a later get_or_create_protein call that supplies
is_mitochondrial false — the update loop applies last-writer-wins to boolean
columns too, so the claimed monotonicity under arbitrary attribute values
fails. -/
theorem flag_reverted_by_false_cx :
    c5dbT.proteins.map (fun p => p.is_mitochondrial) = [true] ∧
    c5dbF.proteins.map (fun p => p.is_mitochondrial) = [false] := by
  decide

/-- C5 amended: in a store with unique protein ids, both boolean flags are
monotone under every ingestion step that does not explicitly supply a false
flag value: get_or_create_protein with attributes whose flag fields are
absent or true, the MitoCarta and HPA row updates (which only set flags
true), alias and interaction writes, data-source registration, checkpoints
and the gene-symbol backfill all preserve a true flag.  The claimed "even a
supplied false cannot revert" is exactly the part that fails:
get_or_create_protein applies last-writer-wins to booleans as well. -/
theorem flags_monotone_ops (db : DB)
    (hid : ∀ p ∈ db.proteins, ∀ q ∈ db.proteins, p.id = q.id → p = q)
    (u : String) (a : ProteinAttrs) (now : Nat)
    (hm : ¬ a.is_mitochondrial = some false)
    (hs : ¬ a.is_muscle_expressed = some false)
    (mrow : MitoRow) (hrow : HpaRow) (pr p1 p2 : Protein) (ty v : String)
    (src? : Option DataSource) (src : DataSource) (c : ℚ)
    (ia : InteractionAttrs) (nm vr fp : String)
    (md : List (String × MetaVal)) (cn cp cs : String)
    (cd : List (String × Nat)) (sym : String) (pid : Nat) :
    flagsPreserved db (get_or_create_protein db u a now).2 ∧
    flagsPreserved db (apply_mitocarta_row db mrow now) ∧
    flagsPreserved db (apply_hpa_row db hrow now) ∧
    flagsPreserved db (add_protein_alias db pr ty v src?) ∧
    flagsPreserved db (add_interaction db p1 p2 src c ia now).2 ∧
    flagsPreserved db (get_or_create_data_source db nm vr fp md now).2 ∧
    flagsPreserved db (save_checkpoint db cn cp cd cs now) ∧
    flagsPreserved db (set_gene_symbol db pid sym now) :=
  ⟨flagsPreserved_get_or_create_protein db hid u a now hm hs,
   flagsPreserved_apply_mitocarta_row db mrow now,
   flagsPreserved_apply_hpa_row db hrow now,
   flagsPreserved_of_proteins_eq db _ (proteins_add_protein_alias db pr ty v src?),
   flagsPreserved_of_proteins_eq db _ (proteins_add_interaction db p1 p2 src c ia now),
   flagsPreserved_of_proteins_eq db _
     (proteins_get_or_create_data_source db nm vr fp md now),
   flagsPreserved_of_proteins_eq db _ rfl,
   flagsPreserved_set_gene_symbol db pid sym now⟩

/-- Witness: on the one-protein store with the flag set true, a repeated
get_or_create_protein with empty attributes preserves the flag. -/
theorem flags_monotone_ops_witness :
    flagsPreserved c5dbT (get_or_create_protein c5dbT ("P") {} 3).2 :=
  (flags_monotone_ops c5dbT (by decide) ("P") {} 3 (by decide) (by decide)
    { symbol := ("G") } { gene := ("G") } { id := 7, uniprot_id := ("Z") }
    { id := 7, uniprot_id := ("Z") } { id := 8, uniprot_id := ("W") }
    ("ty") ("v") none
    { id := 1, name := ("S"), version := ("1"), file_path := ("f"),
      file_size := none, file_hash := none, last_updated := 0,
      source_metadata := [] }
    0 {} ("n") ("v") ("f") [] ("c") ("p") ("s") [] ("g") 0).1

/-- The accumulator loops of _calculate_composite_confidence compute sums. -/
theorem foldl_add_map {α : Type} (f : α → ℚ) (l : List α) (a : ℚ) :
    l.foldl (fun acc x => acc + f x) a = a + (l.map f).sum := by
  induction l generalizing a with
  | nil => simp
  | cons b t ih =>
    simp only [List.foldl_cons, List.map_cons, List.sum_cons]
    rw [ih, add_assoc]

/-- Every entry of the source-weight table is at least the 0.5 default. -/
theorem half_le_source_weights_get (s : String) :
    (1:ℚ)/2 ≤ source_weights_get s := by
  unfold source_weights_get
  split_ifs <;> norm_num

/-- Source weights are positive. -/
theorem source_weights_get_pos (s : String) : 0 < source_weights_get s :=
  lt_of_lt_of_le (by norm_num) (half_le_source_weights_get s)

/-- The table weight of STRING_full. -/
theorem source_weights_get_STRING_full :
    source_weights_get ("STRING_full") = 7/10 := by
  unfold source_weights_get
  rw [if_neg (by decide), if_pos rfl]

/-- The table weight of BioGRID. -/
theorem source_weights_get_BioGRID : source_weights_get ("BioGRID") = 1 := by
  unfold source_weights_get
  rw [if_neg (by decide), if_neg (by decide), if_pos rfl]

/-- The total weight of a nonempty observation list is positive. -/
theorem weights_sum_pos (h : EdgeData) (t : List EdgeData) :
    0 < ((h :: t).map (fun s => source_weights_get s.source)).sum := by
  simp only [List.map_cons, List.sum_cons]
  have h1 := source_weights_get_pos h.source
  have h2 : 0 ≤ (t.map (fun s => source_weights_get s.source)).sum := by
    refine List.sum_nonneg ?_
    intro x hx
    obtain ⟨e, _, he⟩ := List.mem_map.mp hx
    rw [← he]
    exact le_of_lt (source_weights_get_pos e.source)
  linarith

/-- On a nonempty observation list the composite confidence is the weighted
sum of every observation divided by the total weight. -/
theorem composite_eq (h : EdgeData) (t : List EdgeData) :
    calculate_composite_confidence (h :: t) =
      ((h :: t).map
        (fun s => s.confidence_score * source_weights_get s.source)).sum /
        ((h :: t).map (fun s => source_weights_get s.source)).sum := by
  unfold calculate_composite_confidence
  rw [foldl_add_map, foldl_add_map]
  simp only [zero_add]
  rw [if_pos (weights_sum_pos h t)]

/-- A foldl over max only grows its seed. -/
theorem le_foldl_max (a : ℚ) (l : List ℚ) : a ≤ l.foldl max a := by
  induction l generalizing a with
  | nil => exact le_refl a
  | cons b t ih => exact le_trans (le_max_left a b) (ih (max a b))

/-- A foldl over max bounds every list element from above. -/
theorem mem_le_foldl_max (a : ℚ) (l : List ℚ) (x : ℚ) (hx : x ∈ l) :
    x ≤ l.foldl max a := by
  induction l generalizing a with
  | nil => cases hx
  | cons b t ih =>
    rw [List.foldl_cons]
    cases List.mem_cons.mp hx with
    | inl h =>
      rw [h]
      exact le_trans (le_max_right a b) (le_foldl_max (max a b) t)
    | inr h => exact ih (max a b) h

/-- A foldl over min only shrinks its seed. -/
theorem foldl_min_le (a : ℚ) (l : List ℚ) : l.foldl min a ≤ a := by
  induction l generalizing a with
  | nil => exact le_refl a
  | cons b t ih => exact le_trans (ih (min a b)) (min_le_left a b)

/-- A foldl over min bounds every list element from below. -/
theorem foldl_min_le_mem (a : ℚ) (l : List ℚ) (x : ℚ) (hx : x ∈ l) :
    l.foldl min a ≤ x := by
  induction l generalizing a with
  | nil => cases hx
  | cons b t ih =>
    rw [List.foldl_cons]
    cases List.mem_cons.mp hx with
    | inl h =>
      rw [h]
      exact le_trans (foldl_min_le (min a b) t) (min_le_right a b)
    | inr h => exact ih (min a b) h

/-- The weighted sum is bounded above by an upper bound on the confidences
times the total weight. -/
theorem weighted_sum_le (l : List EdgeData) (M : ℚ)
    (hM : ∀ e ∈ l, e.confidence_score ≤ M) :
    (l.map (fun s => s.confidence_score * source_weights_get s.source)).sum ≤
      M * (l.map (fun s => source_weights_get s.source)).sum := by
  induction l with
  | nil => simp
  | cons b t ih =>
    simp only [List.map_cons, List.sum_cons]
    rw [mul_add]
    have h1 : b.confidence_score * source_weights_get b.source ≤
        M * source_weights_get b.source :=
      mul_le_mul_of_nonneg_right (hM b (List.mem_cons_self b t))
        (le_of_lt (source_weights_get_pos b.source))
    have h2 := ih (fun e he => hM e (List.mem_cons_of_mem b he))
    linarith

/-- The weighted sum is bounded below by a lower bound on the confidences
times the total weight. -/
theorem le_weighted_sum (l : List EdgeData) (m : ℚ)
    (hm : ∀ e ∈ l, m ≤ e.confidence_score) :
    m * (l.map (fun s => source_weights_get s.source)).sum ≤
      (l.map (fun s => s.confidence_score * source_weights_get s.source)).sum := by
  induction l with
  | nil => simp
  | cons b t ih =>
    simp only [List.map_cons, List.sum_cons]
    rw [mul_add]
    have h1 : m * source_weights_get b.source ≤
        b.confidence_score * source_weights_get b.source :=
      mul_le_mul_of_nonneg_right (hm b (List.mem_cons_self b t))
        (le_of_lt (source_weights_get_pos b.source))
    have h2 := ih (fun e he => hm e (List.mem_cons_of_mem b he))
    linarith

/-- C7: on every nonempty observation list the composite confidence is the
weighted average of the observations' confidences under the fixed per-source
weight table, sources absent from the table weigh 0.5, and the spec scenario
— STRING_full at confidence 0.6 (weight 0.7) merged with BioGRID at 0.9
(weight 1.0) — yields exactly 66/85 = 0.776470..., with contributing-source
count 2. -/
theorem composite_confidence_weighted_average :
    (∀ (h : EdgeData) (t : List EdgeData),
      calculate_composite_confidence (h :: t) =
        ((h :: t).map
          (fun s => s.confidence_score * source_weights_get s.source)).sum /
          ((h :: t).map (fun s => source_weights_get s.source)).sum) ∧
    (∀ s : String, ¬ s = ("STRING_physical") → ¬ s = ("STRING_full") →
      ¬ s = ("BioGRID") → ¬ s = ("Reactome") → ¬ s = ("CORUM") →
      source_weights_get s = 1/2) ∧
    source_weights_get ("STRING_full") = 7/10 ∧
    source_weights_get ("BioGRID") = 1 ∧
    calculate_composite_confidence [c7e1, c7e2] = 66/85 ∧
    (merge_edge [c7e1, c7e2]).map (fun m => m.num_sources) = some 2 := by
  refine ⟨composite_eq, ?_, ?_, ?_, ?_, by decide⟩
  · intro s h1 h2 h3 h4 h5
    unfold source_weights_get
    rw [if_neg h1, if_neg h2, if_neg h3, if_neg h4, if_neg h5]
  · exact source_weights_get_STRING_full
  · exact source_weights_get_BioGRID
  · rw [show [c7e1, c7e2] = c7e1 :: [c7e2] from rfl, composite_eq]
    simp only [List.map_cons, List.map_nil, List.sum_cons, List.sum_nil, c7e1,
      c7e2, source_weights_get_STRING_full, source_weights_get_BioGRID]
    norm_num

/-- Witness: the concrete scenario value and the default weight of a source
that is absent from the table. -/
theorem composite_confidence_weighted_average_witness :
    calculate_composite_confidence [c7e1, c7e2] = 66/85 ∧
    source_weights_get ("HINT") = 1/2 :=
  ⟨composite_confidence_weighted_average.2.2.2.2.1,
   composite_confidence_weighted_average.2.1 ("HINT") (by decide) (by decide)
     (by decide) (by decide) (by decide)⟩

/-- C8: for every nonempty observation list, the composite confidence lies
between the minimum and the maximum of the contributing confidence scores —
the weights are all positive, so the weighted average cannot escape those
bounds. -/
theorem composite_confidence_between_min_max (h : EdgeData) (t : List EdgeData) :
    (t.map (fun s => s.confidence_score)).foldl min h.confidence_score ≤
      calculate_composite_confidence (h :: t) ∧
    calculate_composite_confidence (h :: t) ≤
      (t.map (fun s => s.confidence_score)).foldl max h.confidence_score := by
  have hW := weights_sum_pos h t
  have hMe : ∀ e ∈ h :: t, e.confidence_score ≤
      (t.map (fun s => s.confidence_score)).foldl max h.confidence_score := by
    intro e he
    cases List.mem_cons.mp he with
    | inl h1 =>
      rw [h1]
      exact le_foldl_max _ _
    | inr h1 =>
      exact mem_le_foldl_max _ _ _
        (List.mem_map_of_mem (fun s => s.confidence_score) h1)
  have hme : ∀ e ∈ h :: t,
      (t.map (fun s => s.confidence_score)).foldl min h.confidence_score ≤
        e.confidence_score := by
    intro e he
    cases List.mem_cons.mp he with
    | inl h1 =>
      rw [h1]
      exact foldl_min_le _ _
    | inr h1 =>
      exact foldl_min_le_mem _ _ _
        (List.mem_map_of_mem (fun s => s.confidence_score) h1)
  rw [composite_eq]
  constructor
  · rw [le_div_iff₀ hW]
    exact le_weighted_sum (h :: t) _ hme
  · rw [div_le_iff₀ hW]
    exact weighted_sum_le (h :: t) _ hMe

/-- C6 counterexample: when the STRING_full source contributes the same pair
twice (confidences 0.6 and 0.8), the merged edge records num_sources = 2 even
though only one distinct source name contributes, and its mean confidence is
the mean 0.7 over both observations rather than the single best per-source
value 0.8 — the claimed per-source best-observation selection and
distinct-source count do not hold. -/
theorem merge_counts_observations_cx :
    (merge_edge [c6e1, c6e2]).map (fun m => m.num_sources) = some 2 ∧
    (merge_edge [c6e1, c6e2]).map (fun m => m.sources.eraseDups.length)
      = some 1 ∧
    (merge_edge [c6e1, c6e2]).map (fun m => m.mean_confidence)
      = some (7/10) := by
  refine ⟨by decide, by decide, ?_⟩
  simp only [merge_edge, Option.map_some]
  norm_num [c6e1, c6e2]

/-- C6 amended: the merge engine aggregates over the raw observation list
without any per-source deduplication: the merged edge's sources field lists
one entry per observation (name multiplicity preserved), num_sources is the
number of observations, max_confidence is the maximum over all observations,
mean confidence is the arithmetic mean over all observations, and the
composite weighs every observation — a source contributing several
observations for the pair is counted and averaged that many times. -/
theorem merge_edge_observation_aggregation (h : EdgeData) (t : List EdgeData) :
    ∃ m, merge_edge (h :: t) = some m ∧
      m.sources = (h :: t).map (fun s => s.source) ∧
      m.num_sources = (h :: t).length ∧
      m.max_confidence =
        (t.map (fun s => s.confidence_score)).foldl max h.confidence_score ∧
      m.mean_confidence * ((h :: t).length : ℚ)
        = ((h :: t).map (fun s => s.confidence_score)).sum ∧
      m.composite_confidence =
        ((h :: t).map
          (fun s => s.confidence_score * source_weights_get s.source)).sum /
          ((h :: t).map (fun s => source_weights_get s.source)).sum := by
  refine ⟨_, rfl, rfl, rfl, rfl, ?_, composite_eq h t⟩
  have hlen : ((h :: t).length : ℚ) ≠ 0 := by
    simp [List.length_cons]
    positivity
  exact div_mul_cancel₀ _ hlen

/-- Re-applying the same supplied value over a column is absorbed. -/
theorem updOpt_idem {α : Type} (n o : Option α) :
    updOpt n (updOpt n o) = updOpt n o := by
  cases n <;> rfl

/-- Applying a supplied value over itself changes nothing. -/
theorem updOpt_self {α : Type} (n : Option α) : updOpt n n = n := by
  cases n <;> rfl

/-- getD of a getD with the same fallback source is absorbed. -/
theorem getD_absorb {α : Type} (n : Option α) (o : α) :
    n.getD (n.getD o) = n.getD o := by
  cases n <;> rfl

/-- The get_or_create_protein update loop is idempotent on the row fields. -/
theorem applyProteinAttrs_idem (p : Protein) (a : ProteinAttrs) :
    applyProteinAttrs (applyProteinAttrs p a) a = applyProteinAttrs p a := by
  simp [applyProteinAttrs, updOpt_idem, getD_absorb]

/-- Updating a freshly created protein with the attributes it was created
from changes no field. -/
theorem applyProteinAttrs_newProtein (i : Nat) (u : String) (a : ProteinAttrs)
    (t : Nat) : applyProteinAttrs (newProtein i u a t) a = newProtein i u a t := by
  unfold newProtein
  exact applyProteinAttrs_idem _ a

/-- A fresh protein keeps the requested canonical accession. -/
theorem newProtein_uniprot (i : Nat) (u : String) (a : ProteinAttrs)
    (t : Nat) : (newProtein i u a t).uniprot_id = u := rfl

/-- The add_interaction attribute loop is idempotent on the row fields. -/
theorem applyInteractionAttrs_idem (r : Interaction) (a : InteractionAttrs) :
    applyInteractionAttrs (applyInteractionAttrs r a) a
      = applyInteractionAttrs r a := by
  simp [applyInteractionAttrs, updOpt_idem]

/-- A map whose function fixes every list element is the identity. -/
theorem map_id_on {α : Type} (l : List α) (f : α → α)
    (h : ∀ x ∈ l, f x = x) : l.map f = l := by
  induction l with
  | nil => rfl
  | cons b tl ih =>
    rw [List.map_cons, h b (List.mem_cons_self b tl),
      ih (fun x hx => h x (List.mem_cons_of_mem b hx))]

/-- Mapping twice with an idempotent function equals mapping once. -/
theorem map_map_eq_of {α : Type} (l : List α) (f : α → α)
    (h : ∀ x, f (f x) = f x) : (l.map f).map f = l.map f := by
  induction l with
  | nil => rfl
  | cons b tl ih =>
    simp only [List.map_cons]
    rw [h b, ih]

/-- Writing the same interaction row twice over a table is absorbed. -/
theorem replaceInteraction_idem (l : List Interaction) (r : Interaction) :
    replaceInteraction (replaceInteraction l r) r = replaceInteraction l r := by
  unfold replaceInteraction
  refine map_map_eq_of l _ ?_
  intro x
  by_cases hx : x.id = r.id <;> simp [hx]

/-- Both calls of get_or_create_protein for a not-yet-stored accession, spelt
out: the first run inserts the fresh protein row, the second finds it again
and rewrites it with the identical attributes, touching only updated_at. -/
theorem get_or_create_protein_fresh_twice (db : DB) (u : String)
    (a : ProteinAttrs) (t1 t2 : Nat)
    (hfind : db.proteins.find? (fun p => p.uniprot_id == u) = none)
    (hfresh : ∀ p ∈ db.proteins, ¬ p.id = db.next_protein_id) :
    (get_or_create_protein db u a t1).2
      = { db with
          proteins := db.proteins ++ [newProtein db.next_protein_id u a t1],
          next_protein_id := db.next_protein_id + 1 } ∧
    (get_or_create_protein (get_or_create_protein db u a t1).2 u a t2).2
      = { db with
          proteins := db.proteins ++
            [{ newProtein db.next_protein_id u a t1 with updated_at := t2 }],
          next_protein_id := db.next_protein_id + 1 } := by
  have h1 : (get_or_create_protein db u a t1).2
      = { db with
          proteins := db.proteins ++ [newProtein db.next_protein_id u a t1],
          next_protein_id := db.next_protein_id + 1 } := by
    unfold get_or_create_protein
    rw [hfind]
  refine ⟨h1, ?_⟩
  rw [h1]
  unfold get_or_create_protein
  have h2 : (db.proteins ++ [newProtein db.next_protein_id u a t1]).find?
      (fun p => p.uniprot_id == u) = some (newProtein db.next_protein_id u a t1) := by
    rw [find?_append_none _ _ _ hfind]
    simp [List.find?, newProtein_uniprot]
  rw [h2]
  simp only
  rw [applyProteinAttrs_newProtein]
  have h3 : replaceProtein
      (db.proteins ++ [newProtein db.next_protein_id u a t1])
      { newProtein db.next_protein_id u a t1 with updated_at := t2 }
      = db.proteins ++
        [{ newProtein db.next_protein_id u a t1 with updated_at := t2 }] := by
    unfold replaceProtein
    rw [List.map_append]
    have hpre : db.proteins.map (fun q =>
        if q.id = ({ newProtein db.next_protein_id u a t1 with
          updated_at := t2 } : Protein).id then
          { newProtein db.next_protein_id u a t1 with updated_at := t2 }
        else q) = db.proteins := by
      refine map_id_on _ _ ?_
      intro x hx
      rw [if_neg]
      exact hfresh x hx
    rw [hpre]
    simp
  rw [h3]

/-- A fresh interaction row matches its own key. -/
theorem interactionKeyMatch_newInteraction (i : Nat) (q1 q2 : Protein)
    (src : DataSource) (c : ℚ) (a : InteractionAttrs) (t : Nat) :
    interactionKeyMatch q1 q2 src (newInteraction i q1 q2 src c a t) = true := by
  simp [interactionKeyMatch, newInteraction]

/-- Updating a fresh interaction row with the confidence and attributes it was
created from changes no field. -/
theorem updatedInteraction_newInteraction (i : Nat) (q1 q2 : Protein)
    (src : DataSource) (c : ℚ) (a : InteractionAttrs) (t : Nat) :
    updatedInteraction (newInteraction i q1 q2 src c a t) c a
      = newInteraction i q1 q2 src c a t := by
  simp [updatedInteraction, newInteraction, applyInteractionAttrs, updOpt_self,
    Option.getD_some, max_self]

/-- The update branch keeps the row id. -/
theorem updatedInteraction_id (r : Interaction) (c : ℚ)
    (a : InteractionAttrs) : (updatedInteraction r c a).id = r.id := rfl

/-- The update branch keeps the pair and source key. -/
theorem interactionKeyMatch_updatedInteraction (q1 q2 : Protein)
    (src : DataSource) (r : Interaction) (c : ℚ) (a : InteractionAttrs) :
    interactionKeyMatch q1 q2 src (updatedInteraction r c a)
      = interactionKeyMatch q1 q2 src r := rfl

/-- Updating a row whose stored confidence already dominates the incoming one
and whose attributes are already applied changes nothing. -/
theorem updatedInteraction_of_conf (r : Interaction) (m c : ℚ)
    (a : InteractionAttrs) (h : r.confidence_score = some m)
    (hmc : max m c = m) (hinv : applyInteractionAttrs r a = r) :
    updatedInteraction r c a = r := by
  unfold updatedInteraction
  rw [h, Option.getD_some, hmc, ← h]
  exact hinv

/-- Re-running the update branch with the same confidence and attributes
changes nothing further. -/
theorem updatedInteraction_idem (r : Interaction) (c : ℚ)
    (a : InteractionAttrs) :
    updatedInteraction (updatedInteraction r c a) c a
      = updatedInteraction r c a := by
  refine updatedInteraction_of_conf _ (max (r.confidence_score.getD 0) c) c a
    rfl ?_ ?_
  · rw [max_assoc, max_self]
  · exact applyInteractionAttrs_idem _ a

/-- Replacing the first key match keeps find? pointed at the replacement,
provided row ids are unique in the table. -/
theorem find?_replaceInteraction (l : List Interaction)
    (pr : Interaction → Bool) (r r2 : Interaction)
    (h : l.find? pr = some r) (hid : r2.id = r.id) (hp : pr r2 = true)
    (hu : ∀ i ∈ l, ∀ j ∈ l, i.id = j.id → i = j) :
    (replaceInteraction l r2).find? pr = some r2 := by
  induction l with
  | nil => cases h
  | cons b tl ih =>
    rw [List.find?_cons] at h
    cases hb : pr b with
    | true =>
      rw [hb] at h
      have hbr : b = r := by
        simpa using h
      unfold replaceInteraction
      rw [List.map_cons]
      rw [if_pos (by rw [hbr]; exact hid.symm)]
      rw [List.find?_cons, hp]
    | false =>
      rw [hb] at h
      have hrtl : r ∈ tl := List.mem_of_find?_eq_some h
      have hbne : ¬ b.id = r2.id := by
        intro hbid
        have hbr : b = r := hu b (List.mem_cons_self b tl) r
          (List.mem_cons_of_mem b hrtl) (by rw [hbid]; exact hid)
        have := List.find?_some h
        rw [← hbr] at this
        rw [this] at hb
        cases hb
      unfold replaceInteraction
      rw [List.map_cons, if_neg hbne, List.find?_cons, hb]
      exact ih h (fun i hi j hj => hu i (List.mem_cons_of_mem b hi) j
        (List.mem_cons_of_mem b hj))

/-- Re-adding the identical (pair, source, confidence, attributes) interaction
is a no-op on the whole store, given unique and fresh interaction ids. -/
theorem add_interaction_idem (db : DB) (p1 p2 : Protein) (src : DataSource)
    (c : ℚ) (ia : InteractionAttrs) (t3 t4 : Nat)
    (hu : ∀ i ∈ db.interactions, ∀ j ∈ db.interactions, i.id = j.id → i = j)
    (hf : ∀ i ∈ db.interactions, ¬ i.id = db.next_interaction_id) :
    (add_interaction (add_interaction db p1 p2 src c ia t3).2
      p1 p2 src c ia t4).2 = (add_interaction db p1 p2 src c ia t3).2 := by
  unfold add_interaction
  cases h : db.interactions.find? (interactionKeyMatch
      (if p1.id > p2.id then (p2, p1) else (p1, p2)).1
      (if p1.id > p2.id then (p2, p1) else (p1, p2)).2 src) with
  | none =>
    simp only [h]
    rw [find?_append_none _ _ _ h]
    rw [show (List.find? (interactionKeyMatch
        (if p1.id > p2.id then (p2, p1) else (p1, p2)).1
        (if p1.id > p2.id then (p2, p1) else (p1, p2)).2 src)
        [newInteraction db.next_interaction_id
          (if p1.id > p2.id then (p2, p1) else (p1, p2)).1
          (if p1.id > p2.id then (p2, p1) else (p1, p2)).2 src c ia t3])
        = some (newInteraction db.next_interaction_id
          (if p1.id > p2.id then (p2, p1) else (p1, p2)).1
          (if p1.id > p2.id then (p2, p1) else (p1, p2)).2 src c ia t3) from by
      rw [List.find?_cons, interactionKeyMatch_newInteraction]]
    simp only
    rw [updatedInteraction_newInteraction]
    have h4 : replaceInteraction
        (db.interactions ++ [newInteraction db.next_interaction_id
          (if p1.id > p2.id then (p2, p1) else (p1, p2)).1
          (if p1.id > p2.id then (p2, p1) else (p1, p2)).2 src c ia t3])
        (newInteraction db.next_interaction_id
          (if p1.id > p2.id then (p2, p1) else (p1, p2)).1
          (if p1.id > p2.id then (p2, p1) else (p1, p2)).2 src c ia t3)
        = db.interactions ++ [newInteraction db.next_interaction_id
          (if p1.id > p2.id then (p2, p1) else (p1, p2)).1
          (if p1.id > p2.id then (p2, p1) else (p1, p2)).2 src c ia t3] := by
      unfold replaceInteraction
      rw [List.map_append]
      rw [map_id_on _ _ (fun x hx => by
        rw [if_neg]
        exact hf x hx)]
      simp
    rw [h4]
  | some r =>
    simp only [h]
    have h2 : (replaceInteraction db.interactions
        (updatedInteraction r c ia)).find? (interactionKeyMatch
          (if p1.id > p2.id then (p2, p1) else (p1, p2)).1
          (if p1.id > p2.id then (p2, p1) else (p1, p2)).2 src)
        = some (updatedInteraction r c ia) := by
      refine find?_replaceInteraction db.interactions _ r _ h
        (updatedInteraction_id r c ia) ?_ hu
      rw [interactionKeyMatch_updatedInteraction]
      exact List.find?_some h
    rw [h2]
    simp only
    rw [updatedInteraction_idem, replaceInteraction_idem]

/-- C2 counterexample: re-ingesting the byte-for-byte identical STRING aliases
file c2rows changes stored data.  The file lists the gene-name row before the
accession row, so the first run (time 1) skips the gene-name row — the STRING
id cannot be resolved yet — and stores one alias; the second run (time 2)
resolves it and inserts a second alias row, and it also refreshes the
protein's updated_at from 1 to 2.  Counts and field values are not all
unchanged after the second run. -/
theorem ingest_twice_not_field_idempotent_cx :
    c2run1.aliases.length = 1 ∧ c2run2.aliases.length = 2 ∧
    c2run1.proteins.map (fun p => p.updated_at) = [1] ∧
    c2run2.proteins.map (fun p => p.updated_at) = [2] := by
  decide

/-- C2 amended: the ingestion write operations are idempotent at the
operation level, up to the updated_at refresh: calling get_or_create_protein
a second time with the same accession and attributes adds no row and changes
no stored field of any table except the touched protein's updated_at
timestamp; re-running add_protein_alias with identical arguments leaves the
store exactly unchanged; and re-running add_interaction with identical
arguments leaves the store exactly unchanged (given unique, fresh interaction
ids).  Full-file idempotence as claimed fails: updated_at changes on every
re-run addressing a stored protein, and a second pass can insert alias rows
whose lookups failed in the first pass (see the counterexample). -/
theorem ingestion_ops_idempotent (db : DB) (u : String) (a : ProteinAttrs)
    (t1 t2 : Nat)
    (hfind : db.proteins.find? (fun p => p.uniprot_id == u) = none)
    (hfresh : ∀ p ∈ db.proteins, ¬ p.id = db.next_protein_id) :
    ((get_or_create_protein (get_or_create_protein db u a t1).2 u a t2).2.proteins.map
        clearTimes
      = (get_or_create_protein db u a t1).2.proteins.map clearTimes ∧
     (get_or_create_protein (get_or_create_protein db u a t1).2 u a t2).2.proteins.length
      = (get_or_create_protein db u a t1).2.proteins.length ∧
     (get_or_create_protein (get_or_create_protein db u a t1).2 u a t2).2.aliases
      = (get_or_create_protein db u a t1).2.aliases ∧
     (get_or_create_protein (get_or_create_protein db u a t1).2 u a t2).2.interactions
      = (get_or_create_protein db u a t1).2.interactions ∧
     (get_or_create_protein (get_or_create_protein db u a t1).2 u a t2).2.sources
      = (get_or_create_protein db u a t1).2.sources) ∧
    (∀ (db3 : DB) (p : Protein) (ty v : String) (s : Option DataSource),
      add_protein_alias (add_protein_alias db3 p ty v s) p ty v s
        = add_protein_alias db3 p ty v s) ∧
    (∀ (db4 : DB) (p1 p2 : Protein) (src : DataSource) (c : ℚ)
       (ia : InteractionAttrs) (t3 t4 : Nat),
      (∀ i ∈ db4.interactions, ∀ j ∈ db4.interactions, i.id = j.id → i = j) →
      (∀ i ∈ db4.interactions, ¬ i.id = db4.next_interaction_id) →
      (add_interaction (add_interaction db4 p1 p2 src c ia t3).2
        p1 p2 src c ia t4).2 = (add_interaction db4 p1 p2 src c ia t3).2) := by
  obtain ⟨h1, h2⟩ := get_or_create_protein_fresh_twice db u a t1 t2 hfind hfresh
  refine ⟨⟨?_, ?_, ?_, ?_, ?_⟩, ?_, ?_⟩
  · rw [h2, h1]
    simp only [List.map_append, List.map_cons, List.map_nil]
    rfl
  · rw [h2, h1]
    simp [List.length_append]
  · rw [h2, h1]
  · rw [h2, h1]
  · rw [h2, h1]
  · exact fun db3 p ty v s => add_protein_alias_idem db3 p ty v s
  · exact fun db4 p1 p2 src c ia t3 t4 hu hf =>
      add_interaction_idem db4 p1 p2 src c ia t3 t4 hu hf

/-- Witness: repeating get_or_create_protein for the fresh accession P1 on the
empty store at times 1 then 2 leaves the protein table equal up to the
updated_at mask. -/
theorem ingestion_ops_idempotent_witness :
    (get_or_create_protein (get_or_create_protein emptyDB ("P1") {} 1).2
        ("P1") {} 2).2.proteins.map clearTimes
      = (get_or_create_protein emptyDB ("P1") {} 1).2.proteins.map clearTimes :=
  (ingestion_ops_idempotent emptyDB ("P1") {} 1 2 rfl (by decide)).1.1

/-- Every stored interaction row carries its pair in ascending protein-id
order. -/
def interactionsOrdered (db : DB) : Prop :=
  ∀ i ∈ db.interactions, i.protein1_id ≤ i.protein2_id

/-- Orderedness transfers along an unchanged interaction table. -/
theorem interactionsOrdered_of_eq (db db2 : DB)
    (h : db2.interactions = db.interactions)
    (hord : interactionsOrdered db) : interactionsOrdered db2 := by
  intro i hi
  rw [h] at hi
  exact hord i hi

/-- get_or_create_data_source never touches the interaction table. -/
theorem interactions_get_or_create_data_source (db : DB)
    (name version file_path : String) (metadata : List (String × MetaVal))
    (now : Nat) :
    (get_or_create_data_source db name version file_path metadata
      now).2.interactions = db.interactions := by
  unfold get_or_create_data_source
  cases h : db.sources.find? (fun s => s.name == name && s.version == version)
    <;> simp [h]

/-- get_or_create_protein never touches the interaction table. -/
theorem interactions_get_or_create_protein (db : DB) (u : String)
    (a : ProteinAttrs) (now : Nat) :
    (get_or_create_protein db u a now).2.interactions = db.interactions := by
  unfold get_or_create_protein
  cases h : db.proteins.find? (fun p => p.uniprot_id == u) <;> simp [h]

/-- add_protein_alias never touches the interaction table. -/
theorem interactions_add_protein_alias (db : DB) (p : Protein)
    (ty v : String) (s : Option DataSource) :
    (add_protein_alias db p ty v s).interactions = db.interactions := by
  unfold add_protein_alias
  cases h : db.aliases.find? (fun r =>
      r.protein_id == p.id && r.alias_type == ty && r.alias_value == v)
    <;> simp [h]

/-- The MitoCarta row update never touches the interaction table. -/
theorem interactions_apply_mitocarta_row (db : DB) (row : MitoRow)
    (now : Nat) :
    (apply_mitocarta_row db row now).interactions = db.interactions := by
  unfold apply_mitocarta_row
  cases h : find_protein_by_alias db row.symbol (some ("symbol")) <;> simp [h]

/-- The HPA row update never touches the interaction table. -/
theorem interactions_apply_hpa_row (db : DB) (row : HpaRow) (now : Nat) :
    (apply_hpa_row db row now).interactions = db.interactions := by
  unfold apply_hpa_row
  by_cases ht : row.muscle_tpm > 0
  · rw [if_pos ht]
    cases h : find_protein_by_alias db row.gene (some ("symbol")) <;> simp [h]
  · rw [if_neg ht]

/-- add_interaction preserves ascending pair order: the create branch swaps
the pair into ascending order, and the update branch keeps the stored ids. -/
theorem interactionsOrdered_add_interaction (db : DB)
    (hord : interactionsOrdered db) (p1 p2 : Protein) (src : DataSource)
    (c : ℚ) (ia : InteractionAttrs) (now : Nat) :
    interactionsOrdered (add_interaction db p1 p2 src c ia now).2 := by
  unfold add_interaction
  cases h : db.interactions.find? (interactionKeyMatch
      (if p1.id > p2.id then (p2, p1) else (p1, p2)).1
      (if p1.id > p2.id then (p2, p1) else (p1, p2)).2 src) with
  | some r =>
    simp only [h]
    intro i hi
    unfold replaceInteraction at hi
    obtain ⟨q, hq, hqi⟩ := List.mem_map.mp hi
    by_cases hqid : q.id = (updatedInteraction r c ia).id
    · rw [if_pos hqid] at hqi
      rw [← hqi]
      have hr1 : (updatedInteraction r c ia).protein1_id = r.protein1_id := rfl
      have hr2 : (updatedInteraction r c ia).protein2_id = r.protein2_id := rfl
      rw [hr1, hr2]
      exact hord r (List.mem_of_find?_eq_some h)
    · rw [if_neg hqid] at hqi
      rw [← hqi]
      exact hord q hq
  | none =>
    simp only [h]
    intro i hi
    cases List.mem_append.mp hi with
    | inl h1 => exact hord i h1
    | inr h1 =>
      have h2 : i = newInteraction db.next_interaction_id
          (if p1.id > p2.id then (p2, p1) else (p1, p2)).1
          (if p1.id > p2.id then (p2, p1) else (p1, p2)).2 src c ia now := by
        simpa using h1
      rw [h2]
      show (if p1.id > p2.id then (p2, p1) else (p1, p2)).1.id ≤
        (if p1.id > p2.id then (p2, p1) else (p1, p2)).2.id
      by_cases hgt : p1.id > p2.id
      · rw [if_pos hgt]
        exact le_of_lt hgt
      · rw [if_neg hgt]
        exact not_lt.mp hgt

/-- When a key match is already stored, add_interaction takes the update
branch and the row count is unchanged. -/
theorem add_interaction_length_of_match (db : DB) (p1 p2 : Protein)
    (src : DataSource) (c : ℚ) (ia : InteractionAttrs) (now : Nat)
    (hex : ∃ r ∈ db.interactions, interactionKeyMatch
      (if p1.id > p2.id then (p2, p1) else (p1, p2)).1
      (if p1.id > p2.id then (p2, p1) else (p1, p2)).2 src r = true) :
    (add_interaction db p1 p2 src c ia now).2.interactions.length
      = db.interactions.length := by
  unfold add_interaction
  cases h : db.interactions.find? (interactionKeyMatch
      (if p1.id > p2.id then (p2, p1) else (p1, p2)).1
      (if p1.id > p2.id then (p2, p1) else (p1, p2)).2 src) with
  | some r => simp [h, replaceInteraction]
  | none =>
    exfalso
    obtain ⟨r, hr, hmatch⟩ := hex
    have := List.find?_eq_none.mp h r hr
    rw [hmatch] at this
    cases this rfl

/-- After add_interaction a key-matching row is stored. -/
theorem add_interaction_match_exists (db : DB) (p1 p2 : Protein)
    (src : DataSource) (c : ℚ) (ia : InteractionAttrs) (now : Nat) :
    ∃ r ∈ (add_interaction db p1 p2 src c ia now).2.interactions,
      interactionKeyMatch
        (if p1.id > p2.id then (p2, p1) else (p1, p2)).1
        (if p1.id > p2.id then (p2, p1) else (p1, p2)).2 src r = true := by
  unfold add_interaction
  cases h : db.interactions.find? (interactionKeyMatch
      (if p1.id > p2.id then (p2, p1) else (p1, p2)).1
      (if p1.id > p2.id then (p2, p1) else (p1, p2)).2 src) with
  | some r =>
    simp only [h]
    refine ⟨updatedInteraction r c ia, ?_, ?_⟩
    · show updatedInteraction r c ia ∈ replaceInteraction db.interactions
        (updatedInteraction r c ia)
      unfold replaceInteraction
      refine List.mem_map.mpr ⟨r, List.mem_of_find?_eq_some h, ?_⟩
      rw [if_pos (updatedInteraction_id r c ia).symm]
    · rw [interactionKeyMatch_updatedInteraction]
      exact List.find?_some h
  | none =>
    simp only [h]
    refine ⟨newInteraction db.next_interaction_id
        (if p1.id > p2.id then (p2, p1) else (p1, p2)).1
        (if p1.id > p2.id then (p2, p1) else (p1, p2)).2 src c ia now,
      ?_, interactionKeyMatch_newInteraction _ _ _ _ _ _ _⟩
    exact List.mem_append_right _ (List.mem_singleton_self _)

/-- Re-adding a pair already stored for the same source updates in place: the
row count never grows on the second call. -/
theorem add_interaction_readd_length (db : DB) (p1 p2 : Protein)
    (src : DataSource) (c c2 : ℚ) (ia ia2 : InteractionAttrs) (t t2 : Nat) :
    ((add_interaction (add_interaction db p1 p2 src c ia t).2
        p1 p2 src c2 ia2 t2).2).interactions.length
      = ((add_interaction db p1 p2 src c ia t).2).interactions.length :=
  add_interaction_length_of_match _ p1 p2 src c2 ia2 t2
    (add_interaction_match_exists db p1 p2 src c ia t)

/-- C9: in every store state reachable through the ingestion operations,
every Interaction row carries its pair in ascending protein-id order — so for
two different proteins A and B at most one orientation of the pair is ever
stored, never both (A,B) and (B,A) — and re-adding the same (pair, source)
takes the update branch rather than inserting a duplicate row. -/
theorem interaction_pair_canonical (db : DB) (hdb : Reach db) :
    (∀ i ∈ db.interactions, i.protein1_id ≤ i.protein2_id) ∧
    (∀ a b : Nat, ¬ a = b →
      ¬ ((∃ i ∈ db.interactions, i.protein1_id = a ∧ i.protein2_id = b) ∧
         (∃ j ∈ db.interactions, j.protein1_id = b ∧ j.protein2_id = a))) ∧
    (∀ (p1 p2 : Protein) (src : DataSource) (c c2 : ℚ)
       (ia ia2 : InteractionAttrs) (t t2 : Nat),
      ((add_interaction (add_interaction db p1 p2 src c ia t).2
          p1 p2 src c2 ia2 t2).2).interactions.length
        = ((add_interaction db p1 p2 src c ia t).2).interactions.length) := by
  have hord : interactionsOrdered db := by
    induction hdb with
    | empty => intro i hi; cases hi
    | data_source db name version file_path metadata now hdb ih =>
      exact interactionsOrdered_of_eq db _
        (interactions_get_or_create_data_source db name version file_path
          metadata now) ih
    | protein db u a now hdb ih =>
      exact interactionsOrdered_of_eq db _
        (interactions_get_or_create_protein db u a now) ih
    | alias_step db p ty v src hdb ih =>
      exact interactionsOrdered_of_eq db _
        (interactions_add_protein_alias db p ty v src) ih
    | interaction db p1 p2 src c a now hdb ih =>
      exact interactionsOrdered_add_interaction db ih p1 p2 src c a now
    | checkpoint db n ph d st now hdb ih =>
      exact interactionsOrdered_of_eq db _ rfl ih
    | mito db row now hdb ih =>
      exact interactionsOrdered_of_eq db _
        (interactions_apply_mitocarta_row db row now) ih
    | hpa db row now hdb ih =>
      exact interactionsOrdered_of_eq db _
        (interactions_apply_hpa_row db row now) ih
    | gene_symbol db pid sym now hdb ih =>
      exact interactionsOrdered_of_eq db _ rfl ih
  refine ⟨hord, ?_, ?_⟩
  · intro a b hab hboth
    obtain ⟨⟨i, hi, hi1, hi2⟩, ⟨j, hj, hj1, hj2⟩⟩ := hboth
    have h1 : a ≤ b := by
      have := hord i hi
      rw [hi1, hi2] at this
      exact this
    have h2 : b ≤ a := by
      have := hord j hj
      rw [hj1, hj2] at this
      exact this
    exact hab (le_antisymm h1 h2)
  · intro p1 p2 src c c2 ia ia2 t t2
    exact add_interaction_readd_length db p1 p2 src c c2 ia ia2 t t2

/-- Witness: on the concrete reachable store c9db, re-adding the same pair
and source leaves the interaction count unchanged. -/
theorem interaction_pair_canonical_witness :
    ((add_interaction (add_interaction c9db c9p1 c9p2 c9src (3/5) {} 1).2
        c9p1 c9p2 c9src (7/10) {} 2).2).interactions.length
      = ((add_interaction c9db c9p1 c9p2 c9src (3/5) {} 1).2).interactions.length :=
  (interaction_pair_canonical c9db
    (Reach.interaction emptyDB c9p1 c9p2 c9src (1/2) {} 0 Reach.empty)).2.2
    c9p1 c9p2 c9src (3/5) (7/10) {} {} 1 2

end Mitonet
